import Mathlib

/-!
# Terminal emulator: mode state machine, reader loop and plug-in discovery

A shallow embedding of `src/terminal.c`.  Every function of that file that
touches the session record (`CommandMode`, `ConnectMode`, `ReadLoop`,
`FindPlugins`, `LoadPlugin`) is a Lean function from the session record and
the answers of the outside world (port driver, file enumeration, plug-in
libraries) to a `Run`: the list of calls made to the outside world, in program
order, and the session record at return.  A run whose `result` is `none` did
not return: it stopped at a store outside the `hEmulator` block or at a read
of a slot of it that was never written, where C gives no meaning to the
program, or the secure formatter of `ConnectMode` ended the process; its
`trace` holds the calls made up to that point.
-/

namespace Terminal

/-! ## Data model -/

/-- Values stored in `ti->dwMode`. -/
inductive Mode where
  | kModeCommand
  | kModeConnect
  deriving DecidableEq, Repr

/-- Descriptor of an emulator (`struct _emulator`).  Only the members used by
`terminal.c` appear.  A function pointer is `none` when it is `NULL`, else
`some fn` with `fn` the address of the function. -/
structure Emulator where
  emulation_name : String
  emulator_data : Nat
  on_connect : Option Nat
  on_disconnect : Option Nat
  deriving DecidableEq, Repr

/-- The session record (`struct _TermInfo`), with the members `terminal.c`
reads or writes.  `hCommDev` is `none` when it holds no open port handle and
`some h` when it holds the open handle `h`.  `hEmulator` is the block of
`Emulator*` slots obtained from `malloc`; a slot never written is `none`. -/
structure TermInfo where
  hwnd : Nat
  dwMode : Mode
  hCommDev : Option Nat
  hReadLoop : Nat
  hEmulator : List (Option Emulator)
  e_idx : Nat
  e_count : Nat
  deriving DecidableEq, Repr

/-- Answer of a port-driver call: success, or failure with the code that
`GetLastError()` gives right after the call. -/
inductive DriverResult where
  | ok
  | error (lastError : Nat)
  deriving DecidableEq, Repr

/-- Symbolic menu command identifiers (`resource.h`). -/
inductive MenuId where
  | ID_CONNECT
  | ID_DISCONNECT
  | ID_COM_START (offset : Nat)
  | ID_EMU_START (offset : Nat)
  deriving DecidableEq, Repr

/-- Menus that receive `InsertMenuItem`. -/
inductive Menu where
  | connectmenu
  | emulation
  deriving DecidableEq, Repr

/-- Calls made to the outside world, the stores to `ti->dwMode` (`setMode`)
and the reads of it by the reader thread (`readMode`). -/
inductive Event where
  | OpenPort (port : Nat) (res : DriverResult)
  | ClosePort (res : DriverResult)
  | ReadData (res : DriverResult)
  | ReportError (dwError : Nat)
  | CreateThread
  | on_connect (fn : Nat) (data : Nat)
  | on_disconnect (fn : Nat) (data : Nat)
  | setMode (m : Mode)
  | readMode (m : Mode)
  | CreateMenu
  | EnableMenuItem (id : MenuId) (enabled : Bool)
  | InsertMenuItem (menu : Menu) (pos : Nat) (id : MenuId) (label : String)
  | ModifyMenu (id : MenuId) (label : String)
  | InvalidateRect
  | none_init
  | FindFirstFile (found : Bool)
  | FindNextFile (found : Bool)
  | FindClose
  | LoadLibrary (cFileName : String) (loaded : Bool)
  | GetProcAddress (cFileName : String) (found : Bool)
  | emulator_init_plugin (cFileName : String) (ok : Bool)
  deriving DecidableEq, Repr

/-- Outcome of running a function of `terminal.c`. -/
structure Run where
  trace : List Event
  result : Option TermInfo
  deriving DecidableEq, Repr

/-- Put the calls `pre` in front of a run. -/
def Run.after (pre : List Event) (r : Run) : Run :=
  ⟨pre ++ r.trace, r.result⟩

/-! ## The port driver and the emulator capability test -/

/-- Value returned by a driver call: `0` on success, non-zero on failure (the
callers only compare it with `0`). -/
def DriverResult.ret : DriverResult → Nat
  | .ok => 0
  | .error _ => 1

/-- Value of `GetLastError()` right after a driver call that failed. -/
def GetLastError : DriverResult → Nat
  | .ok => 0
  | .error e => e

/-- Modelled from the spec: `OpenPort` (the serial driver is not among the
sources).  It opens the named endpoint and hands the handle back through its
second argument: on success `hCommDev` holds the new open handle `hDevice`,
on failure it is left as it was.  Returns the return value and the new
content of `hCommDev`. -/
def OpenPort (res : DriverResult) (hDevice : Nat) (hCommDev : Option Nat) :
    Nat × Option Nat :=
  match res with
  | .ok => (res.ret, some hDevice)
  | .error _ => (res.ret, hCommDev)

/-- Modelled from the spec: `ClosePort` (the serial driver is not among the
sources).  On success the handle is closed; a close that fails leaves the
handle in the state the driver had it in, that is, as it was. -/
def ClosePort (res : DriverResult) (hCommDev : Option Nat) : Nat × Option Nat :=
  match res with
  | .ok => (res.ret, none)
  | .error _ => (res.ret, hCommDev)

/-- Modelled from the spec: the macro `EMULATOR_HAS_FUNC(emu, func)` of
`terminal.h` (not among the sources): a capability is implemented when its
function pointer is not null. -/
def EMULATOR_HAS_FUNC (func : Option Nat) : Bool :=
  func.isSome

/-- The guarded call `if (EMULATOR_HAS_FUNC(emu, func)) emu->func(emu->emulator_data)`:
the call made, if any. -/
def callIfImplemented (call : Nat → Nat → Event) (func : Option Nat) (data : Nat) :
    List Event :=
  if EMULATOR_HAS_FUNC func then
    match func with
    | some fn => [call fn data]
    | none => []
  else []

/-- The read `ti->hEmulator[i]`: `none` when slot `i` lies outside the block
or was never written. -/
def TermInfo.emulatorAt (ti : TermInfo) (i : Nat) : Option Emulator :=
  ti.hEmulator.getD i none

/-! ## CommandMode -/

/-- The local array `DWORD ports[10] = {0, 1, 2, 3, 4}`. -/
def CommandMode.ports : List Nat := [0, 1, 2, 3, 4, 0, 0, 0, 0, 0]

/-- The local `DWORD max = 5`. -/
def CommandMode.max : Nat := 5

/-- Body of the first `for` loop of `CommandMode`, for one `i`.  The label
`Communication Port COM&<p>` has 25 characters for the one-digit ports of
`ports`, so it fits the 32 characters of `name`. -/
def CommandMode.portItem (i : Nat) : List Event :=
  let p := CommandMode.ports.getD i 0
  [ Event.InsertMenuItem Menu.connectmenu i (MenuId.ID_COM_START p)
      ("Communication Port COM&" ++ toString p),
    Event.EnableMenuItem (MenuId.ID_COM_START p) true ]

/-- Lines 70-98 of `CommandMode`: the menus are rebuilt and `dwMode` is set to
`kModeCommand`. -/
def CommandMode.menus (ti : TermInfo) : Run :=
  ⟨ [Event.EnableMenuItem MenuId.ID_DISCONNECT false]
      ++ (List.range CommandMode.max).flatMap CommandMode.portItem
      ++ (List.range ti.e_count).map
          (fun i => Event.EnableMenuItem (MenuId.ID_EMU_START i) true)
      ++ [ Event.ModifyMenu MenuId.ID_CONNECT "&Connect",
           Event.EnableMenuItem MenuId.ID_CONNECT false,
           Event.setMode Mode.kModeCommand ],
    some { ti with dwMode := Mode.kModeCommand } ⟩

/-- `void CommandMode(HWND hwnd)`, on the session record `ti` of the window;
`close` is the answer of the driver to `ClosePort`, should it be called. -/
def CommandMode (ti : TermInfo) (close : DriverResult) : Run :=
  if ti.dwMode = Mode.kModeConnect then
    match ti.emulatorAt ti.e_idx with
    | none => ⟨[Event.CreateMenu], none⟩
    | some emu =>
      let closed := ClosePort close ti.hCommDev
      let ti1 := { ti with dwMode := Mode.kModeCommand, hCommDev := closed.2 }
      Run.after
        ([Event.CreateMenu]
          ++ callIfImplemented Event.on_disconnect emu.on_disconnect emu.emulator_data
          ++ [Event.setMode Mode.kModeCommand, Event.ClosePort close]
          ++ (if closed.1 ≠ 0 then [Event.ReportError (GetLastError close)] else []))
        (CommandMode.menus ti1)
  else
    Run.after [Event.CreateMenu] (CommandMode.menus ti)

/-! ## ConnectMode -/

/-- The call `_stprintf_s(comport, 8, TEXT("COM%d"), port)` on the local
`TCHAR comport[8]`: the name `COM<port>` and its terminator fit the 8
characters exactly when `port` prints with at most four characters, that is
when `port < 10000` (a `DWORD` from `2^31` on prints under `%d` with a minus
sign and ten digits).  When the name does not fit, the secure formatter calls
the invalid-parameter handler, which ends the process. -/
def ConnectMode.nameFits (port : Nat) : Bool :=
  decide (port < 10000)

/-- `void ConnectMode(HWND hwnd, DWORD port)`.  The port name is `COM<port>`;
when it does not fit `comport` the run ends before any other call.
`open_` is the answer of the driver to `OpenPort` and `hDevice` the handle it
hands back on success, `hThread` the value of `CreateThread`, `close` the
answer to `ClosePort` should the failure path reach it. -/
def ConnectMode (ti : TermInfo) (port : Nat) (open_ : DriverResult) (hDevice : Nat)
    (hThread : Nat) (close : DriverResult) : Run :=
  if ConnectMode.nameFits port = false then ⟨[], none⟩
  else
    let opened := OpenPort open_ hDevice ti.hCommDev
    let ti1 := { ti with hCommDev := opened.2 }
    if opened.1 ≠ 0 then
      Run.after [Event.OpenPort port open_, Event.ReportError (GetLastError open_)]
        (CommandMode ti1 close)
    else
      let ti2 := { ti1 with dwMode := Mode.kModeConnect }
      let ti3 := { ti2 with hReadLoop := hThread }
      let pre :=
        [ Event.OpenPort port open_,
          Event.EnableMenuItem MenuId.ID_DISCONNECT true,
          Event.EnableMenuItem MenuId.ID_CONNECT false ]
        ++ (List.range 256).map
            (fun i => Event.EnableMenuItem (MenuId.ID_COM_START i) false)
        ++ [ Event.setMode Mode.kModeConnect, Event.InvalidateRect, Event.CreateThread ]
      match ti3.emulatorAt ti3.e_idx with
      | none => ⟨pre, none⟩
      | some emu =>
        ⟨ pre ++ callIfImplemented Event.on_connect emu.on_connect emu.emulator_data,
          some ti3 ⟩

/-! ## ReadLoop -/

/-- What one pass through the `while` of `ReadLoop` meets: the value of
`ti->dwMode` read by the loop test (the flag is shared with the window thread,
so each read is an input), and the answer of the driver to `ReadData`, should
the pass call it. -/
structure ReadLoop.Pass where
  dwMode : Mode
  read : DriverResult
  deriving DecidableEq, Repr

/-- Control state of the reader thread. -/
inductive ReadLoop.State where
  | looping
  | returned (value : Nat)
  deriving DecidableEq, Repr

/-- One step of `ReadLoop`: the loop test, then either the loop body or
`return 0`.  A thread that has returned does nothing more. -/
def ReadLoop.step (p : ReadLoop.Pass) : ReadLoop.State → List Event × ReadLoop.State
  | .returned v => ([], .returned v)
  | .looping =>
    if p.dwMode = Mode.kModeConnect then
      ( [Event.readMode p.dwMode, Event.ReadData p.read]
          ++ (if p.read.ret ≠ 0 then [Event.ReportError (GetLastError p.read)] else []),
        .looping )
    else
      ([Event.readMode p.dwMode], .returned 0)

/-- The steps of `ReadLoop` along a schedule of passes, from state `s`. -/
def ReadLoop.run : List ReadLoop.Pass → ReadLoop.State → List Event × ReadLoop.State
  | [], s => ([], s)
  | p :: ps, s =>
    let here := ReadLoop.step p s
    let later := ReadLoop.run ps here.2
    (here.1 ++ later.1, later.2)

/-- `static DWORD WINAPI ReadLoop(LPVOID lpParameter)` along a schedule: the
calls made and the control state reached (`returned 0` once the thread has
left the loop, `looping` while it has not). -/
def ReadLoop (sched : List ReadLoop.Pass) : List Event × ReadLoop.State :=
  ReadLoop.run sched .looping

/-! ## FindPlugins and LoadPlugin -/

/-- What the loader finds in one candidate file. -/
inductive PluginFile where
  | loadFails
  | noInitSymbol
  | initFalse
  | initOk (e : Emulator)
  deriving DecidableEq, Repr

/-- One entry of the enumeration (`WIN32_FIND_DATA`), with what loading the
file named by it yields. -/
structure WIN32_FIND_DATA where
  isDirectory : Bool
  cFileName : String
  file : PluginFile
  deriving DecidableEq, Repr

/-- Answer of `FindFirstFile` and of the `FindNextFile` calls that follow it:
no handle, with the code of `GetLastError()`, or a first entry and the
entries after it. -/
inductive FindResult where
  | invalid (lastError : Nat)
  | found (first : WIN32_FIND_DATA) (rest : List WIN32_FIND_DATA)
  deriving DecidableEq, Repr

/-- Modelled from the spec: `sizeof(Emulator)` in units of `sizeof(Emulator*)`
(`struct _emulator` is declared in `terminal.h`, not among the sources).  The
descriptor holds a display name, the two optional hooks and the private data,
four pointer-sized members; `extraWords` counts whatever else it declares. -/
def sizeof_Emulator (extraWords : Nat) : Nat :=
  4 + extraWords

/-- Number of `Emulator*` slots in the block `malloc(sizeof(Emulator) * 8)`. -/
def hEmulatorSlots (extraWords : Nat) : Nat :=
  sizeof_Emulator extraWords * 8

/-- The store `ti->hEmulator[i] = e`; `none` when slot `i` lies outside the
block. -/
def TermInfo.storeEmulator (ti : TermInfo) (i : Nat) (e : Emulator) : Option TermInfo :=
  if i < ti.hEmulator.length then
    some { ti with hEmulator := ti.hEmulator.set i (some e) }
  else none

/-- `void LoadPlugin(HWND hwnd, Emulator* emu, DWORD i)`: one menu entry is
inserted; the session record is not touched. -/
def LoadPlugin (emu : Emulator) (i : Nat) : List Event :=
  [Event.InsertMenuItem Menu.emulation 1 (MenuId.ID_EMU_START i) emu.emulation_name]

/-- Body of the `do ... while` of `FindPlugins` for the entry `ffd`, with the
local `i` and the session record; gives the calls made and the new `i` and
session record. -/
def FindPlugins.body (ffd : WIN32_FIND_DATA) (i : Nat) (ti : TermInfo) :
    List Event × Option (Nat × TermInfo) :=
  if ffd.isDirectory then ([], some (i, ti))
  else
    match ffd.file with
    | .loadFails => ([Event.LoadLibrary ffd.cFileName false], some (i, ti))
    | .noInitSymbol =>
      ( [Event.LoadLibrary ffd.cFileName true, Event.GetProcAddress ffd.cFileName false],
        some (i, ti) )
    | .initFalse =>
      ( [ Event.LoadLibrary ffd.cFileName true, Event.GetProcAddress ffd.cFileName true,
          Event.emulator_init_plugin ffd.cFileName false ],
        some (i, ti) )
    | .initOk e =>
      ( [ Event.LoadLibrary ffd.cFileName true, Event.GetProcAddress ffd.cFileName true,
          Event.emulator_init_plugin ffd.cFileName true ] ++ LoadPlugin e i,
        (ti.storeEmulator i e).map
          (fun ti1 => (i + 1, { ti1 with e_count := ti1.e_count + 1 })) )

/-- The `do ... while (FindNextFile(hFind, &ffd) != 0)` of `FindPlugins`, then
`FindClose`: `ffd` is the entry at hand, `rest` the entries `FindNextFile` will
still deliver. -/
def FindPlugins.loop : WIN32_FIND_DATA → List WIN32_FIND_DATA → Nat → TermInfo → Run
  | ffd, rest, i, ti =>
    match FindPlugins.body ffd i ti with
    | (t, none) => ⟨t, none⟩
    | (t, some (i1, ti1)) =>
      match rest with
      | [] => ⟨t ++ [Event.FindNextFile false, Event.FindClose], some ti1⟩
      | next :: rest1 =>
        Run.after (t ++ [Event.FindNextFile true]) (FindPlugins.loop next rest1 i1 ti1)

/-- `Emulator* FindPlugins(HWND hwnd, TermInfo* ti)`.  `extraWords` fixes the
size of the block (see `hEmulatorSlots`), `builtin` is the descriptor returned
by `none_init(hwnd)`, `dir` the answer of the file enumeration.  The counters
`i` and `e_count` are `DWORD`s; they stay below the number of slots of the
block, so they are not reduced modulo `2^32`. -/
def FindPlugins (extraWords : Nat) (builtin : Emulator) (ti : TermInfo) (dir : FindResult) :
    Run :=
  let ti1 := { ti with hEmulator := List.replicate (hEmulatorSlots extraWords) none }
  match ti1.storeEmulator 0 builtin with
  | none => ⟨[Event.none_init], none⟩
  | some ti2 =>
    let ti3 := { ti2 with e_idx := 0 }
    let ti4 := { ti3 with e_count := 1 }
    match dir with
    | .invalid lastError =>
      ⟨[Event.none_init, Event.FindFirstFile false, Event.ReportError lastError], some ti4⟩
    | .found first rest =>
      Run.after [Event.none_init, Event.FindFirstFile true] (FindPlugins.loop first rest 1 ti4)

/-! ## Sequences of mode transitions -/

/-- One call of a mode transition, with the answers of the outside world to
the calls it may make. -/
inductive Call where
  | command (close : DriverResult)
  | connect (port : Nat) (open_ : DriverResult) (hDevice : Nat) (hThread : Nat)
      (close : DriverResult)
  deriving DecidableEq, Repr

/-- Run one call on a session record. -/
def Call.run : Call → TermInfo → Run
  | .command close, ti => CommandMode ti close
  | .connect port open_ hDevice hThread close, ti =>
    ConnectMode ti port open_ hDevice hThread close

/-- The port name of a call fits the buffer of `ConnectMode` (`CommandMode`
formats no port name of its caller). -/
def Call.nameFits : Call → Bool
  | .command _ => true
  | .connect port _ _ _ _ => ConnectMode.nameFits port

/-- Run a sequence of calls, one after the other. -/
def runCalls : List Call → TermInfo → Run
  | [], ti => ⟨[], some ti⟩
  | c :: cs, ti =>
    match (c.run ti).result with
    | none => ⟨(c.run ti).trace, none⟩
    | some ti1 => Run.after (c.run ti).trace (runCalls cs ti1)

/-! ## Sample data -/

/-- The built-in emulator: a display name and no hook. -/
def Example.noEmulation : Emulator :=
  ⟨"No Emulation", 0, none, none⟩

/-- A plug-in emulator with both hooks. -/
def Example.echo : Emulator :=
  ⟨"Echo", 4096, some 11, some 12⟩

/-- A session record before discovery. -/
def Example.blank : TermInfo :=
  ⟨1, Mode.kModeCommand, none, 0, [], 0, 0⟩

/-- A session in Command mode, `Echo` selected. -/
def Example.idle : TermInfo :=
  ⟨1, Mode.kModeCommand, none, 0, [some Example.noEmulation, some Example.echo], 1, 2⟩

/-- A session in Connect mode, `Echo` selected. -/
def Example.online : TermInfo :=
  ⟨1, Mode.kModeConnect, some 7, 9, [some Example.noEmulation, some Example.echo], 1, 2⟩

/-- A plug-in file that loads and registers `Echo`. -/
def Example.echoDll : WIN32_FIND_DATA :=
  ⟨false, "echo.dll", PluginFile.initOk Example.echo⟩

/-- A directory listing of `n` further plug-in files that all load and
register. -/
def Example.moreDlls (n : Nat) : List WIN32_FIND_DATA :=
  (List.range n).map
    (fun k => ⟨false, "emu" ++ toString k ++ ".dll", PluginFile.initOk Example.echo⟩)

/-- Codes of the errors reported to the user, in order. -/
def reported (t : List Event) : List Nat :=
  t.filterMap (fun e => match e with | .ReportError c => some c | _ => none)

/-- Calls of an `on_connect` hook, in order: the function called and its argument. -/
def connectHooks (t : List Event) : List (Nat × Nat) :=
  t.filterMap (fun e => match e with | .on_connect fn d => some (fn, d) | _ => none)

/-- Calls of an `on_disconnect` hook, in order: the function called and its argument. -/
def disconnectHooks (t : List Event) : List (Nat × Nat) :=
  t.filterMap (fun e => match e with | .on_disconnect fn d => some (fn, d) | _ => none)

/-- Answers of the `ClosePort` calls made, in order. -/
def closeCalls (t : List Event) : List DriverResult :=
  t.filterMap (fun e => match e with | .ClosePort r => some r | _ => none)

/-- Answers of the `ReadData` calls made, in order. -/
def readCalls (t : List Event) : List DriverResult :=
  t.filterMap (fun e => match e with | .ReadData r => some r | _ => none)

/-- A call to the menu system, or a store to `dwMode`: none of the calls the
readers of a trace look for. -/
def Event.isQuiet : Event → Bool
  | .EnableMenuItem _ _ => true
  | .InsertMenuItem _ _ _ _ => true
  | .ModifyMenu _ _ => true
  | .setMode _ => true
  | .CreateMenu => true
  | .InvalidateRect => true
  | _ => false

/-- In the trace `t`, a call `a` is made and a call `b` is made later. -/
def Precedes (a b : Event) (t : List Event) : Prop :=
  ∃ l1 l2 l3, t = l1 ++ a :: l2 ++ b :: l3

/-- The descriptors of the candidates of an enumeration that load, export the
entry point and whose entry point returns true, in enumeration order. -/
def registeredBy : List WIN32_FIND_DATA → List Emulator
  | [] => []
  | ffd :: rest =>
    match ffd.isDirectory, ffd.file with
    | false, .initOk e => e :: registeredBy rest
    | _, _ => registeredBy rest

/-- The candidate plug-in files of an enumeration: its entries that are not
directories. -/
def candidates (l : List WIN32_FIND_DATA) : List WIN32_FIND_DATA :=
  l.filter (fun ffd => !ffd.isDirectory)

/-- A candidate fails: the library does not load, the entry point is missing,
or the entry point returns false. -/
def WIN32_FIND_DATA.fails (ffd : WIN32_FIND_DATA) : Bool :=
  match ffd.file with
  | .initOk _ => false
  | _ => true

/-- The entries delivered by an enumeration. -/
def FindResult.entries : FindResult → List WIN32_FIND_DATA
  | .invalid _ => []
  | .found first rest => first :: rest


/-! # Theorems -/


/-! ## Lemmas on traces -/

theorem menus_quiet (ti : TermInfo) : ∀ e ∈ (CommandMode.menus ti).trace, e.isQuiet = true := by
  intro e he
  simp only [CommandMode.menus, List.mem_append, List.mem_cons, List.mem_map, List.mem_flatMap,
    CommandMode.portItem, List.mem_singleton, List.not_mem_nil, or_false] at he
  rcases he with ((rfl | ⟨i, _, rfl | rfl⟩) | ⟨i, _, rfl⟩) | rfl | rfl | rfl <;> rfl

theorem filterMap_quiet {α : Type} (f : Event → Option α) (t : List Event)
    (hf : ∀ e, e.isQuiet = true → f e = none) (ht : ∀ e ∈ t, e.isQuiet = true) :
    t.filterMap f = [] := by
  rw [List.filterMap_eq_nil_iff]
  intro e he
  exact hf e (ht e he)

theorem reported_menus (ti : TermInfo) : reported (CommandMode.menus ti).trace = [] :=
  filterMap_quiet _ _ (by intro e he; cases e <;> simp_all [Event.isQuiet]) (menus_quiet ti)

theorem connectHooks_menus (ti : TermInfo) : connectHooks (CommandMode.menus ti).trace = [] :=
  filterMap_quiet _ _ (by intro e he; cases e <;> simp_all [Event.isQuiet]) (menus_quiet ti)

theorem disconnectHooks_menus (ti : TermInfo) :
    disconnectHooks (CommandMode.menus ti).trace = [] :=
  filterMap_quiet _ _ (by intro e he; cases e <;> simp_all [Event.isQuiet]) (menus_quiet ti)

theorem closeCalls_menus (ti : TermInfo) : closeCalls (CommandMode.menus ti).trace = [] :=
  filterMap_quiet _ _ (by intro e he; cases e <;> simp_all [Event.isQuiet]) (menus_quiet ti)

theorem CommandMode_of_command (ti : TermInfo) (close : DriverResult)
    (h : ti.dwMode = Mode.kModeCommand) :
    CommandMode ti close = Run.after [Event.CreateMenu] (CommandMode.menus ti) := by
  simp [CommandMode, h]

theorem menus_result (ti : TermInfo) :
    (CommandMode.menus ti).result = some { ti with dwMode := Mode.kModeCommand } := rfl

theorem menus_result_of_command (ti : TermInfo) (h : ti.dwMode = Mode.kModeCommand) :
    (CommandMode.menus ti).result = some ti := by
  cases ti
  simp_all [CommandMode.menus]

theorem CommandMode_of_connect (ti : TermInfo) (close : DriverResult) (emu : Emulator)
    (h : ti.dwMode = Mode.kModeConnect) (hemu : ti.emulatorAt ti.e_idx = some emu) :
    CommandMode ti close =
      Run.after
        ([Event.CreateMenu]
          ++ callIfImplemented Event.on_disconnect emu.on_disconnect emu.emulator_data
          ++ [Event.setMode Mode.kModeCommand, Event.ClosePort close]
          ++ (if (ClosePort close ti.hCommDev).1 ≠ 0
                then [Event.ReportError (GetLastError close)] else []))
        (CommandMode.menus
          { ti with dwMode := Mode.kModeCommand, hCommDev := (ClosePort close ti.hCommDev).2 }) := by
  simp [CommandMode, h, hemu]

theorem grayed_quiet (n : Nat) :
    ∀ e ∈ (List.range n).map (fun i => Event.EnableMenuItem (MenuId.ID_COM_START i) false),
      e.isQuiet = true := by
  intro e he
  simp only [List.mem_map] at he
  obtain ⟨i, _, rfl⟩ := he
  rfl

theorem CommandMode_connect_facts (ti : TermInfo) (close : DriverResult) (emu : Emulator)
    (hmode : ti.dwMode = Mode.kModeConnect) (hemu : ti.emulatorAt ti.e_idx = some emu) :
    disconnectHooks (CommandMode ti close).trace
        = (match emu.on_disconnect with
           | some fn => [(fn, emu.emulator_data)]
           | none => [])
      ∧ closeCalls (CommandMode ti close).trace = [close]
      ∧ (∃ ti1, (CommandMode ti close).result = some ti1
          ∧ ti1.dwMode = Mode.kModeCommand) := by
  rw [CommandMode_of_connect ti close emu hmode hemu]
  have hd := disconnectHooks_menus
  have hl := closeCalls_menus
  simp only [disconnectHooks, closeCalls] at hd hl
  refine ⟨?_, ?_, ?_⟩
  · cases hf : emu.on_disconnect <;> cases close <;>
      simp [Run.after, disconnectHooks, callIfImplemented, EMULATOR_HAS_FUNC, hf, hd,
        ClosePort, DriverResult.ret]
  · cases hf : emu.on_disconnect <;> cases close <;>
      simp [Run.after, closeCalls, callIfImplemented, EMULATOR_HAS_FUNC, hf, hl,
        ClosePort, DriverResult.ret]
  · exact ⟨_, rfl, rfl⟩

/-- C4: in Connect mode, with the active slot `hEmulator[e_idx]` holding the
descriptor `emu`, `CommandMode` calls `emu->on_disconnect` once, with
`emu->emulator_data`, when that hook is implemented, and no hook when it is
not; the hook call comes before the one call of `ClosePort`; the session ends
with `dwMode == kModeCommand` whatever the answer of `ClosePort`; a failed
close is reported once, with its code, and a successful close reports
nothing. -/
theorem CommandMode_from_connect (ti : TermInfo) (close : DriverResult) (emu : Emulator)
    (hmode : ti.dwMode = Mode.kModeConnect) (hemu : ti.emulatorAt ti.e_idx = some emu) :
    disconnectHooks (CommandMode ti close).trace
        = (match emu.on_disconnect with
           | some fn => [(fn, emu.emulator_data)]
           | none => [])
      ∧ connectHooks (CommandMode ti close).trace = []
      ∧ closeCalls (CommandMode ti close).trace = [close]
      ∧ (∀ fn, emu.on_disconnect = some fn →
          Precedes (Event.on_disconnect fn emu.emulator_data) (Event.ClosePort close)
            (CommandMode ti close).trace)
      ∧ reported (CommandMode ti close).trace
          = (match close with
             | .ok => []
             | .error c => [c])
      ∧ (∃ ti1, (CommandMode ti close).result = some ti1
          ∧ ti1.dwMode = Mode.kModeCommand) := by
  rw [CommandMode_of_connect ti close emu hmode hemu]
  have hd := disconnectHooks_menus
  have hc := connectHooks_menus
  have hl := closeCalls_menus
  have hr := reported_menus
  simp only [connectHooks, disconnectHooks, closeCalls, reported] at hd hc hl hr
  refine ⟨?_, ?_, ?_, ?_, ?_, ?_⟩
  · cases hf : emu.on_disconnect <;> cases close <;>
      simp [Run.after, disconnectHooks, callIfImplemented, EMULATOR_HAS_FUNC, hf, hd,
        ClosePort, DriverResult.ret]
  · cases hf : emu.on_disconnect <;> cases close <;>
      simp [Run.after, connectHooks, callIfImplemented, EMULATOR_HAS_FUNC, hf, hc,
        ClosePort, DriverResult.ret]
  · cases hf : emu.on_disconnect <;> cases close <;>
      simp [Run.after, closeCalls, callIfImplemented, EMULATOR_HAS_FUNC, hf, hl,
        ClosePort, DriverResult.ret]
  · intro fn hf
    exact ⟨[Event.CreateMenu], [Event.setMode Mode.kModeCommand],
      (if (ClosePort close ti.hCommDev).1 ≠ 0
        then [Event.ReportError (GetLastError close)] else [])
      ++ (CommandMode.menus
          { ti with dwMode := Mode.kModeCommand,
                    hCommDev := (ClosePort close ti.hCommDev).2 }).trace,
      by simp [Run.after, List.append_assoc, callIfImplemented, EMULATOR_HAS_FUNC, hf]⟩
  · cases hf : emu.on_disconnect <;> cases close <;>
      simp [Run.after, reported, callIfImplemented, EMULATOR_HAS_FUNC, hf, hr,
        ClosePort, DriverResult.ret, GetLastError]
  · exact ⟨_, rfl, rfl⟩


theorem runCalls_two_commands (ti : TermInfo) (c1 c2 : DriverResult) :
    runCalls [Call.command c1, Call.command c2] ti =
      (match (CommandMode ti c1).result with
       | none => ⟨(CommandMode ti c1).trace, none⟩
       | some ti1 =>
         ⟨(CommandMode ti c1).trace ++ (CommandMode ti1 c2).trace,
           (CommandMode ti1 c2).result⟩) := by
  simp only [runCalls, Call.run]
  cases h1 : (CommandMode ti c1).result with
  | none => rfl
  | some ti1 =>
    cases h2 : (CommandMode ti1 c2).result <;> simp [Run.after, h2]

theorem CommandMode_result_mode (ti ti1 : TermInfo) (close : DriverResult)
    (h : (CommandMode ti close).result = some ti1) : ti1.dwMode = Mode.kModeCommand := by
  unfold CommandMode at h
  split at h
  · split at h
    · simp at h
    · simp only [Run.after, menus_result, Option.some.injEq] at h
      rw [← h]
  · simp only [Run.after, menus_result, Option.some.injEq] at h
    rw [← h]

theorem disconnectHooks_CommandMode_le (ti : TermInfo) (close : DriverResult) :
    (disconnectHooks (CommandMode ti close).trace).length ≤ 1 := by
  cases hm : ti.dwMode with
  | kModeCommand =>
    rw [CommandMode_of_command ti close hm]
    have hd := disconnectHooks_menus ti
    simp only [disconnectHooks] at hd
    simp [Run.after, disconnectHooks, hd]
  | kModeConnect =>
    cases hemu : ti.emulatorAt ti.e_idx with
    | none => simp [CommandMode, hm, hemu, disconnectHooks]
    | some emu =>
      rw [(CommandMode_connect_facts ti close emu hm hemu).1]
      cases emu.on_disconnect <;> simp

/-- C5: in Command mode `CommandMode` returns the session record as it was
(so `dwMode`, the port handle, the plug-in list, `e_idx` and `e_count` are
unchanged), calls no `on_disconnect` hook and does not call `ClosePort`.
From any session record, two calls of `CommandMode` in a row end in the same
session record as the first call alone, and call `on_disconnect` at most
once. -/
theorem CommandMode_idempotent (ti : TermInfo) (c1 c2 : DriverResult) :
    (ti.dwMode = Mode.kModeCommand →
        (CommandMode ti c1).result = some ti
          ∧ disconnectHooks (CommandMode ti c1).trace = []
          ∧ closeCalls (CommandMode ti c1).trace = [])
      ∧ (runCalls [Call.command c1, Call.command c2] ti).result = (CommandMode ti c1).result
      ∧ (disconnectHooks (runCalls [Call.command c1, Call.command c2] ti).trace).length ≤ 1
      ∧ ((ti.emulatorAt ti.e_idx).isSome = true →
          ∃ ti1, (CommandMode ti c1).result = some ti1) := by
  have hfirst : ∀ (t : TermInfo) (c : DriverResult), t.dwMode = Mode.kModeCommand →
      (CommandMode t c).result = some t
        ∧ disconnectHooks (CommandMode t c).trace = []
        ∧ closeCalls (CommandMode t c).trace = [] := by
    intro t c hm
    rw [CommandMode_of_command t c hm]
    have hd := disconnectHooks_menus t
    have hl := closeCalls_menus t
    simp only [disconnectHooks, closeCalls] at hd hl
    refine ⟨?_, ?_, ?_⟩
    · simpa [Run.after] using menus_result_of_command t hm
    · simp [Run.after, disconnectHooks, hd]
    · simp [Run.after, closeCalls, hl]
  refine ⟨hfirst ti c1, ?_, ?_, ?_⟩
  · rw [runCalls_two_commands]
    cases h1 : (CommandMode ti c1).result with
    | none => rfl
    | some ti1 =>
      exact (hfirst ti1 c2 (CommandMode_result_mode ti ti1 c1 h1)).1
  · rw [runCalls_two_commands]
    cases h1 : (CommandMode ti c1).result with
    | none => exact disconnectHooks_CommandMode_le ti c1
    | some ti1 =>
      have h2 := (hfirst ti1 c2 (CommandMode_result_mode ti ti1 c1 h1)).2.1
      have h3 := disconnectHooks_CommandMode_le ti c1
      simp only [disconnectHooks] at h2 h3
      simp [disconnectHooks, List.filterMap_append, h2, h3]
  · intro hsome
    obtain ⟨emu, hemu⟩ := Option.isSome_iff_exists.1 hsome
    cases hm : ti.dwMode with
    | kModeCommand => exact ⟨ti, (hfirst ti c1 hm).1⟩
    | kModeConnect =>
      obtain ⟨ti1, h1, _⟩ := (CommandMode_connect_facts ti c1 emu hm hemu).2.2
      exact ⟨ti1, h1⟩

/-! ## Lemmas on FindPlugins -/

theorem entry_cases (ffd : WIN32_FIND_DATA) :
    (ffd.isDirectory = true ∨ ffd.fails = true)
      ∨ ∃ e, ffd.isDirectory = false ∧ ffd.file = PluginFile.initOk e := by
  cases hd : ffd.isDirectory
  · cases hf : ffd.file
    · exact Or.inl (Or.inr (by simp [WIN32_FIND_DATA.fails, hf]))
    · exact Or.inl (Or.inr (by simp [WIN32_FIND_DATA.fails, hf]))
    · exact Or.inl (Or.inr (by simp [WIN32_FIND_DATA.fails, hf]))
    · exact Or.inr ⟨_, rfl, rfl⟩
  · exact Or.inl (Or.inl rfl)

theorem registeredBy_cons_skip (ffd : WIN32_FIND_DATA) (rest : List WIN32_FIND_DATA)
    (h : ffd.isDirectory = true ∨ ffd.fails = true) :
    registeredBy (ffd :: rest) = registeredBy rest := by
  rcases h with h | h
  · simp [registeredBy, h]
  · cases hf : ffd.file <;> cases hd : ffd.isDirectory <;>
      simp_all [registeredBy, WIN32_FIND_DATA.fails]

theorem registeredBy_cons_ok (ffd : WIN32_FIND_DATA) (rest : List WIN32_FIND_DATA)
    (e : Emulator) (hd : ffd.isDirectory = false) (hf : ffd.file = PluginFile.initOk e) :
    registeredBy (ffd :: rest) = e :: registeredBy rest := by
  simp [registeredBy, hd, hf]

theorem body_skip (ffd : WIN32_FIND_DATA) (i : Nat) (ti : TermInfo)
    (h : ffd.isDirectory = true ∨ ffd.fails = true) :
    (FindPlugins.body ffd i ti).2 = some (i, ti) := by
  rcases h with h | h
  · simp [FindPlugins.body, h]
  · cases hf : ffd.file <;> cases hd : ffd.isDirectory <;>
      simp_all [FindPlugins.body, WIN32_FIND_DATA.fails]

theorem body_ok (ffd : WIN32_FIND_DATA) (i : Nat) (ti : TermInfo) (e : Emulator)
    (hd : ffd.isDirectory = false) (hf : ffd.file = PluginFile.initOk e) :
    (FindPlugins.body ffd i ti).2 =
      (ti.storeEmulator i e).map
        (fun ti1 => (i + 1, { ti1 with e_count := ti1.e_count + 1 })) := by
  simp [FindPlugins.body, hd, hf]

theorem loop_result_eq (ffd : WIN32_FIND_DATA) (rest : List WIN32_FIND_DATA) (i : Nat)
    (ti : TermInfo) :
    (FindPlugins.loop ffd rest i ti).result =
      (match (FindPlugins.body ffd i ti).2 with
       | none => none
       | some (i1, ti1) =>
         match rest with
         | [] => some ti1
         | next :: rest1 => (FindPlugins.loop next rest1 i1 ti1).result) := by
  cases rest with
  | nil =>
    rw [FindPlugins.loop]
    rcases hb : FindPlugins.body ffd i ti with ⟨t, _ | ⟨i1, ti1⟩⟩ <;> simp
  | cons next rest1 =>
    rw [FindPlugins.loop]
    rcases hb : FindPlugins.body ffd i ti with ⟨t, _ | ⟨i1, ti1⟩⟩ <;> simp [Run.after]

/-- The loop of `FindPlugins`, started with the first `acc.length` slots of the
block written and `n` slots free: it runs to completion when the candidates
that register fit in the free slots, and stops at a store outside the block
when they do not. -/
theorem loop_result (rest : List WIN32_FIND_DATA) :
    ∀ (ffd : WIN32_FIND_DATA) (acc : List Emulator) (n : Nat) (ti : TermInfo),
      ti.hEmulator = acc.map some ++ List.replicate n none →
      (FindPlugins.loop ffd rest acc.length ti).result =
        if (registeredBy (ffd :: rest)).length ≤ n then
          some { ti with
            hEmulator := (acc ++ registeredBy (ffd :: rest)).map some
              ++ List.replicate (n - (registeredBy (ffd :: rest)).length) none,
            e_count := ti.e_count + (registeredBy (ffd :: rest)).length }
        else none := by
  induction rest with
  | nil =>
    intro ffd acc n ti h
    rw [loop_result_eq]
    rcases entry_cases ffd with hs | ⟨e, hd, hf⟩
    · rw [body_skip ffd _ ti hs, registeredBy_cons_skip ffd [] hs]
      cases ti
      simp_all [registeredBy]
    · rw [body_ok ffd _ ti e hd hf, registeredBy_cons_ok ffd [] e hd hf]
      cases n with
      | zero => simp [TermInfo.storeEmulator, h, registeredBy]
      | succ m =>
        simp [TermInfo.storeEmulator, h, registeredBy, List.set_append, List.replicate_succ]
  | cons next rest1 ih =>
    intro ffd acc n ti h
    rw [loop_result_eq]
    rcases entry_cases ffd with hs | ⟨e, hd, hf⟩
    · rw [body_skip ffd _ ti hs, registeredBy_cons_skip ffd _ hs]
      exact ih next acc n ti h
    · rw [body_ok ffd _ ti e hd hf, registeredBy_cons_ok ffd _ e hd hf]
      cases n with
      | zero => simp [TermInfo.storeEmulator, h]
      | succ m =>
        have hstore : ti.storeEmulator acc.length e =
            some { ti with hEmulator := (acc ++ [e]).map some ++ List.replicate m none } := by
          simp [TermInfo.storeEmulator, h, List.set_append, List.replicate_succ]
        rw [hstore]
        have := ih next (acc ++ [e]) m
          { ti with hEmulator := (acc ++ [e]).map some ++ List.replicate m none,
                    e_count := ti.e_count + 1 } rfl
        simp only [List.length_append, List.length_singleton] at this
        simp only [Option.map_some']
        rw [this]
        simp only [List.length_cons, Nat.add_le_add_iff_right, List.append_assoc,
          List.singleton_append, Nat.add_sub_add_right]
        split <;> simp [Nat.add_assoc, Nat.add_comm 1]

theorem hEmulatorSlots_pos (extraWords : Nat) : 0 < hEmulatorSlots extraWords := by
  simp [hEmulatorSlots, sizeof_Emulator]

/-- The session record at the return of `FindPlugins`: the discovery completes
exactly when the candidates that register, after the built-in emulator, fit
in the block; slot 0 then holds the built-in emulator and the slots after it
the registered descriptors, in enumeration order. -/
theorem FindPlugins_result (extraWords : Nat) (builtin : Emulator) (ti : TermInfo)
    (dir : FindResult) :
    (FindPlugins extraWords builtin ti dir).result =
      if (registeredBy dir.entries).length < hEmulatorSlots extraWords then
        some { ti with
          hEmulator := (builtin :: registeredBy dir.entries).map some
            ++ List.replicate
                (hEmulatorSlots extraWords - 1 - (registeredBy dir.entries).length) none,
          e_idx := 0,
          e_count := 1 + (registeredBy dir.entries).length }
      else none := by
  obtain ⟨m, hm⟩ : ∃ m, hEmulatorSlots extraWords = m + 1 :=
    ⟨hEmulatorSlots extraWords - 1, by have := hEmulatorSlots_pos extraWords; omega⟩
  have hstore : TermInfo.storeEmulator
      { ti with hEmulator := List.replicate (hEmulatorSlots extraWords) none } 0 builtin =
      some { ti with hEmulator := [builtin].map some ++ List.replicate m none } := by
    simp [TermInfo.storeEmulator, hm, List.replicate_succ]
  unfold FindPlugins
  simp only [hstore]
  cases dir with
  | invalid lastError =>
    simp [FindResult.entries, registeredBy, hm]
  | found first rest =>
    have := loop_result rest first [builtin] m
      { ti with hEmulator := [builtin].map some ++ List.replicate m none,
                e_idx := 0, e_count := 1 } rfl
    simp only [List.length_singleton] at this
    simp only [Run.after, this, FindResult.entries, hm, Nat.lt_succ_iff]
    split <;> simp

theorem candidates_cons (ffd : WIN32_FIND_DATA) (rest : List WIN32_FIND_DATA) :
    candidates (ffd :: rest) = candidates [ffd] ++ candidates rest := by
  cases hd : ffd.isDirectory <;> simp [candidates, hd]

theorem registeredBy_length (es : List WIN32_FIND_DATA) :
    (registeredBy es).length + ((candidates es).filter (fun f => f.fails)).length
      = (candidates es).length := by
  induction es with
  | nil => rfl
  | cons ffd rest ih =>
    rcases entry_cases ffd with hs | ⟨e, hd, hf⟩
    · rw [registeredBy_cons_skip ffd rest hs, candidates_cons ffd rest]
      rcases hs with hs | hs
      · simp only [candidates, hs, List.filter_cons, Bool.not_true, Bool.false_eq_true,
          if_false, List.filter_nil, List.nil_append] at ih ⊢
        exact ih
      · cases hd : ffd.isDirectory
        · simp only [candidates, hd, hs, List.filter_cons, Bool.not_false, if_true,
            List.filter_nil, List.singleton_append, List.length_cons] at ih ⊢
          omega
        · simp only [candidates, hd, List.filter_cons, Bool.not_true, Bool.false_eq_true,
            if_false, List.filter_nil, List.nil_append] at ih ⊢
          exact ih
    · have hfail : ffd.fails = false := by simp [WIN32_FIND_DATA.fails, hf]
      rw [registeredBy_cons_ok ffd rest e hd hf, candidates_cons ffd rest]
      simp only [candidates, hd, hfail, List.filter_cons, Bool.not_false, if_true,
        Bool.false_eq_true, if_false, List.filter_nil, List.singleton_append,
        List.length_cons] at ih ⊢
      omega

/-- Discovery within the block: when the candidates that register, after the
built-in emulator, fit in the block, `FindPlugins` ends with
`e_count == 1 + (N - K)` for `N` candidates of which `K` fail, slot 0 holding
the built-in emulator and the next slots the registered descriptors in
enumeration order. -/
theorem FindPlugins_registers (extraWords : Nat) (builtin : Emulator) (ti : TermInfo)
    (dir : FindResult)
    (hfit : (registeredBy dir.entries).length < hEmulatorSlots extraWords) :
    ∃ ti1, (FindPlugins extraWords builtin ti dir).result = some ti1
      ∧ ti1.e_count = 1 + ((candidates dir.entries).length
          - ((candidates dir.entries).filter (fun f => f.fails)).length)
      ∧ ti1.e_idx = 0
      ∧ ti1.hEmulator.take ti1.e_count = (builtin :: registeredBy dir.entries).map some := by
  rw [FindPlugins_result, if_pos hfit]
  refine ⟨_, rfl, ?_, rfl, ?_⟩
  · have := registeredBy_length dir.entries
    simp only
    omega
  · simp only
    rw [List.take_append_of_le_length (by simp; omega)]
    rw [List.take_of_length_le (by simp; omega)]

/-- C10: when `FindFirstFile` gives no handle, `FindPlugins` reports one error,
with the code of `GetLastError()`, and returns with `e_count == 1`,
`e_idx == 0`, slot 0 holding the built-in emulator and no other slot written. -/
theorem FindPlugins_enumeration_fails (extraWords : Nat) (builtin : Emulator)
    (ti : TermInfo) (lastError : Nat) :
    reported (FindPlugins extraWords builtin ti (.invalid lastError)).trace = [lastError]
      ∧ ∃ ti1, (FindPlugins extraWords builtin ti (.invalid lastError)).result = some ti1
          ∧ ti1.e_count = 1 ∧ ti1.e_idx = 0 ∧ ti1.emulatorAt 0 = some builtin
          ∧ (∀ j, 0 < j → ti1.emulatorAt j = none)
          ∧ ti1.dwMode = ti.dwMode ∧ ti1.hCommDev = ti.hCommDev := by
  constructor
  · obtain ⟨m, hm⟩ : ∃ m, hEmulatorSlots extraWords = m + 1 :=
      ⟨hEmulatorSlots extraWords - 1, by have := hEmulatorSlots_pos extraWords; omega⟩
    simp [FindPlugins, TermInfo.storeEmulator, hm, reported]
  · have hpos : (registeredBy (FindResult.invalid lastError).entries).length
        < hEmulatorSlots extraWords := hEmulatorSlots_pos extraWords
    rw [FindPlugins_result, if_pos hpos]
    refine ⟨_, rfl, rfl, rfl, ?_, ?_, rfl, rfl⟩
    · simp [TermInfo.emulatorAt, FindResult.entries, registeredBy]
    · intro j hj
      obtain ⟨k, rfl⟩ : ∃ k, j = k + 1 := ⟨j - 1, by omega⟩
      simp only [TermInfo.emulatorAt, FindResult.entries, registeredBy, List.map_cons,
        List.map_nil, List.singleton_append, List.getD_cons_succ]
      rw [List.getD_eq_getElem?_getD, List.getElem?_replicate]
      split <;> rfl

theorem closeCalls_grayed (n : Nat) :
    closeCalls
      ((List.range n).map (fun i => Event.EnableMenuItem (MenuId.ID_COM_START i) false)) = [] :=
  filterMap_quiet _ _ (by intro e he; cases e <;> simp_all [Event.isQuiet]) (grayed_quiet n)

theorem ReadLoop_run_returned (sched : List ReadLoop.Pass) (v : Nat) :
    ReadLoop.run sched (.returned v) = ([], .returned v) := by
  induction sched with
  | nil => rfl
  | cons p ps ih => simp [ReadLoop.run, ReadLoop.step, ih]

theorem ReadLoop_cons_connect (p : ReadLoop.Pass) (ps : List ReadLoop.Pass)
    (h : p.dwMode = Mode.kModeConnect) :
    ReadLoop (p :: ps) =
      ( [Event.readMode Mode.kModeConnect, Event.ReadData p.read]
          ++ (match p.read with
              | .ok => []
              | .error c => [Event.ReportError c])
          ++ (ReadLoop ps).1,
        (ReadLoop ps).2 ) := by
  cases hr : p.read <;>
    simp [ReadLoop, ReadLoop.run, ReadLoop.step, h, hr, DriverResult.ret, GetLastError]

theorem ReadLoop_cons_other (p : ReadLoop.Pass) (ps : List ReadLoop.Pass)
    (h : p.dwMode ≠ Mode.kModeConnect) :
    ReadLoop (p :: ps) = ([Event.readMode p.dwMode], .returned 0) := by
  simp [ReadLoop, ReadLoop.run, ReadLoop.step, h, ReadLoop_run_returned]

theorem ReadLoop_state (sched : List ReadLoop.Pass) :
    ((ReadLoop sched).2 = .returned 0 ↔ ∃ p ∈ sched, p.dwMode ≠ Mode.kModeConnect)
      ∧ ((ReadLoop sched).2 = .looping ↔ ∀ p ∈ sched, p.dwMode = Mode.kModeConnect) := by
  induction sched with
  | nil => simp [ReadLoop, ReadLoop.run]
  | cons p ps ih =>
    by_cases h : p.dwMode = Mode.kModeConnect
    · rw [ReadLoop_cons_connect p ps h]
      simp only [ih.1, ih.2, List.mem_cons, exists_eq_or_imp, forall_eq_or_imp, h,
        ne_eq, not_true_eq_false, false_or, true_and, and_self]
    · rw [ReadLoop_cons_other p ps h]
      simp [h]

theorem ReadLoop_reads (sched : List ReadLoop.Pass) :
    readCalls (ReadLoop sched).1
        = (sched.takeWhile (fun p => decide (p.dwMode = Mode.kModeConnect))).map
            (fun p => p.read)
      ∧ reported (ReadLoop sched).1
        = (sched.takeWhile (fun p => decide (p.dwMode = Mode.kModeConnect))).filterMap
            (fun p => match p.read with
              | .ok => none
              | .error c => some c) := by
  induction sched with
  | nil => simp [ReadLoop, ReadLoop.run, readCalls, reported]
  | cons p ps ih =>
    by_cases h : p.dwMode = Mode.kModeConnect
    · rw [ReadLoop_cons_connect p ps h]
      obtain ⟨ih1, ih2⟩ := ih
      simp only [readCalls, reported] at ih1 ih2
      cases hr : p.read <;>
        simp [readCalls, reported, List.takeWhile_cons, h, hr, ih1, ih2]
    · rw [ReadLoop_cons_other p ps h]
      simp [readCalls, reported, List.takeWhile_cons, h]

theorem ReadLoop_stops (pre : List ReadLoop.Pass) (p : ReadLoop.Pass)
    (post : List ReadLoop.Pass) (h : p.dwMode ≠ Mode.kModeConnect) :
    ReadLoop (pre ++ p :: post) = ReadLoop (pre ++ [p]) := by
  induction pre with
  | nil =>
    simp only [List.nil_append]
    rw [ReadLoop_cons_other p post h, ReadLoop_cons_other p [] h]
  | cons q qs ih =>
    by_cases hq : q.dwMode = Mode.kModeConnect
    · simp only [List.cons_append]
      rw [ReadLoop_cons_connect q _ hq, ReadLoop_cons_connect q _ hq, ih]
    · simp only [List.cons_append]
      rw [ReadLoop_cons_other q _ hq, ReadLoop_cons_other q _ hq]

/-- C9: a step of `ReadLoop` first reads `dwMode`; when it read
`kModeConnect` it makes one `ReadData` call and goes on looping, with one
error report when (and only when) the read failed; when it read another value
it makes no call and returns 0.  Along a schedule, the loop has returned 0
exactly when one of its reads of `dwMode` gave a value other than
`kModeConnect`, it is still looping exactly when all gave `kModeConnect`, one
read is made for each pass before the first such value, and what the schedule
holds after that value changes nothing: no read is started after it. -/
theorem ReadLoop_contract (sched : List ReadLoop.Pass) :
    (∀ p : ReadLoop.Pass, p.dwMode = Mode.kModeConnect →
        ReadLoop.step p .looping =
          ( [Event.readMode Mode.kModeConnect, Event.ReadData p.read]
              ++ (match p.read with
                  | .ok => []
                  | .error c => [Event.ReportError c]),
            .looping ))
      ∧ (∀ p : ReadLoop.Pass, p.dwMode ≠ Mode.kModeConnect →
          ReadLoop.step p .looping = ([Event.readMode p.dwMode], .returned 0))
      ∧ ((ReadLoop sched).2 = .returned 0 ↔ ∃ p ∈ sched, p.dwMode ≠ Mode.kModeConnect)
      ∧ ((ReadLoop sched).2 = .looping ↔ ∀ p ∈ sched, p.dwMode = Mode.kModeConnect)
      ∧ readCalls (ReadLoop sched).1
          = (sched.takeWhile (fun p => decide (p.dwMode = Mode.kModeConnect))).map
              (fun p => p.read)
      ∧ reported (ReadLoop sched).1
          = (sched.takeWhile (fun p => decide (p.dwMode = Mode.kModeConnect))).filterMap
              (fun p => match p.read with
                | .ok => none
                | .error c => some c)
      ∧ (∀ pre p post, sched = pre ++ p :: post → p.dwMode ≠ Mode.kModeConnect →
          ReadLoop sched = ReadLoop (pre ++ [p])) := by
  refine ⟨?_, ?_, (ReadLoop_state sched).1, (ReadLoop_state sched).2,
    (ReadLoop_reads sched).1, (ReadLoop_reads sched).2, ?_⟩
  · intro p h
    cases hr : p.read <;> simp [ReadLoop.step, h, hr, DriverResult.ret, GetLastError]
  · intro p h
    simp [ReadLoop.step, h]
  · intro pre p post hs h
    rw [hs]
    exact ReadLoop_stops pre p post h

/-- Discovery beyond the block: when the candidates that register, after the
built-in emulator, do not fit in the block, `FindPlugins` makes a store
outside the block. -/
theorem FindPlugins_overflow (extraWords : Nat) (builtin : Emulator) (ti : TermInfo)
    (dir : FindResult)
    (hmany : hEmulatorSlots extraWords ≤ (registeredBy dir.entries).length) :
    (FindPlugins extraWords builtin ti dir).result = none := by
  rw [FindPlugins_result, if_neg (by omega)]

/-- C6 at a failing input: with a descriptor of four words the block has 32
slots; a directory of 32 plug-in files that all load and register (`N = 32`,
`K = 0`) makes the 32nd registration store to `hEmulator[32]`, outside the
block, so the discovery does not end with `e_count == 33`. -/
theorem FindPlugins_block_overflow :
    hEmulatorSlots 0 = 32
      ∧ (candidates (Example.echoDll :: Example.moreDlls 31)).length = 32
      ∧ ((candidates (Example.echoDll :: Example.moreDlls 31)).filter
          (fun f => f.fails)).length = 0
      ∧ (FindPlugins 0 Example.noEmulation Example.blank
          (.found Example.echoDll (Example.moreDlls 31))).result = none := by
  refine ⟨rfl, by decide, by decide, ?_⟩
  rw [FindPlugins_result]
  decide

/-! ## The theorems at sample inputs -/

theorem CommandMode_from_connect_witness :
    Example.online.dwMode = Mode.kModeConnect
      ∧ Example.online.emulatorAt Example.online.e_idx = some Example.echo
      ∧ disconnectHooks (CommandMode Example.online (.error 5)).trace = [(12, 4096)]
      ∧ closeCalls (CommandMode Example.online (.error 5)).trace = [.error 5]
      ∧ reported (CommandMode Example.online (.error 5)).trace = [5] :=
  ⟨rfl, rfl, (CommandMode_from_connect Example.online (.error 5) Example.echo rfl rfl).1,
    (CommandMode_from_connect Example.online (.error 5) Example.echo rfl rfl).2.2.1,
    (CommandMode_from_connect Example.online (.error 5) Example.echo rfl rfl).2.2.2.2.1⟩

theorem CommandMode_idempotent_witness :
    Example.idle.dwMode = Mode.kModeCommand
      ∧ (CommandMode Example.idle .ok).result = some Example.idle
      ∧ (runCalls [Call.command (.error 5), Call.command .ok] Example.online).result
          = (CommandMode Example.online (.error 5)).result
      ∧ (disconnectHooks
          (runCalls [Call.command (.error 5), Call.command .ok] Example.online).trace).length
          ≤ 1 :=
  ⟨rfl, ((CommandMode_idempotent Example.idle .ok .ok).1 rfl).1,
    (CommandMode_idempotent Example.online (.error 5) .ok).2.1,
    (CommandMode_idempotent Example.online (.error 5) .ok).2.2.1⟩

theorem ReadLoop_contract_witness :
    (ReadLoop [⟨Mode.kModeConnect, .ok⟩, ⟨Mode.kModeConnect, .error 5⟩,
        ⟨Mode.kModeCommand, .ok⟩, ⟨Mode.kModeConnect, .ok⟩]).2 = .returned 0
      ∧ readCalls (ReadLoop [⟨Mode.kModeConnect, .ok⟩, ⟨Mode.kModeConnect, .error 5⟩,
          ⟨Mode.kModeCommand, .ok⟩, ⟨Mode.kModeConnect, .ok⟩]).1 = [.ok, .error 5]
      ∧ reported (ReadLoop [⟨Mode.kModeConnect, .ok⟩, ⟨Mode.kModeConnect, .error 5⟩,
          ⟨Mode.kModeCommand, .ok⟩, ⟨Mode.kModeConnect, .ok⟩]).1 = [5] :=
  ⟨(ReadLoop_contract [⟨Mode.kModeConnect, .ok⟩, ⟨Mode.kModeConnect, .error 5⟩,
        ⟨Mode.kModeCommand, .ok⟩, ⟨Mode.kModeConnect, .ok⟩]).2.2.1.2
      ⟨⟨Mode.kModeCommand, .ok⟩, by decide, by decide⟩,
    (ReadLoop_contract [⟨Mode.kModeConnect, .ok⟩, ⟨Mode.kModeConnect, .error 5⟩,
        ⟨Mode.kModeCommand, .ok⟩, ⟨Mode.kModeConnect, .ok⟩]).2.2.2.2.1,
    (ReadLoop_contract [⟨Mode.kModeConnect, .ok⟩, ⟨Mode.kModeConnect, .error 5⟩,
        ⟨Mode.kModeCommand, .ok⟩, ⟨Mode.kModeConnect, .ok⟩]).2.2.2.2.2.1⟩

end Terminal
